import Mathlib

/-!
Verification of the Sidequest task-marketplace server actions.

The definitions below are a shallow embedding of the server-action handlers
in `src/lib/actions/tasks.ts` and `src/lib/actions/auth.ts` (sendMessage,
getMessages, submitRating live in the same action modules) together with the
`is_blocked` helper of `src/supabase/migrations/00001_initial_schema.sql`.
The managed store is modelled as an explicit record of tables; each handler
takes the store, the authenticated subject (`Option Nat`, the explicit
context-passing reading of the ambient session) and its inputs, and returns
the uniform `{ success, data?, error? }` result shape together with the new
store.  Timestamps are `Nat` epoch values threaded in as a `now` parameter;
row ids for inserted rows are generated from table lengths.  A PostgREST
conditional update (`.update(...).eq(...)`) is modelled by `updateWhere`,
which returns the updated table together with the number of affected rows;
as in supabase-js, a zero-row update is not an error.  `acceptTaskPhased`
separates the handler's read phase from its write phase so that the
accept race described in the design (another transaction committing between
the handler's initial read and its conditional update) is expressible;
`acceptTask` is the interference-free instance of it.
-/

set_option linter.unusedVariables false

namespace Sidequest

/-- Task lifecycle status, mirroring the `task_status` SQL enum. -/
inductive TaskStatus where
  | OPEN
  | ACCEPTED
  | COMPLETE
  | CANCELED
  deriving DecidableEq, Repr

/-- Task categories, mirroring the `task_category` SQL enum. -/
inductive TaskCategory where
  | ERRAND
  | DELIVERY
  | MOVING
  | TUTORING
  | CLEANING
  | OTHER
  deriving DecidableEq, Repr

/-- Time windows, mirroring the `time_window` SQL enum. -/
inductive TimeWindow where
  | NOW
  | TODAY
  | THIS_WEEK
  | SCHEDULED
  deriving DecidableEq, Repr

/-- Message types, mirroring the `message_type` SQL enum. -/
inductive MessageType where
  | TEXT
  | SYSTEM
  deriving DecidableEq, Repr

/-- A row of the `profiles` table. -/
structure Profile where
  id : Nat
  email : String
  display_name : Option String
  accepted_rules : Bool
  created_at : Nat
  deriving DecidableEq, Repr

/-- A row of the `tasks` table. -/
structure Task where
  id : Nat
  poster_id : Nat
  accepted_by_user_id : Option Nat
  status : TaskStatus
  title : String
  description : String
  category : TaskCategory
  location_text : String
  time_window : TimeWindow
  scheduled_at : Option Nat
  price_cents : Int
  created_at : Nat
  accepted_at : Option Nat
  completed_at : Option Nat
  canceled_at : Option Nat
  deriving DecidableEq, Repr

/-- A row of the `messages` table. -/
structure Message where
  id : Nat
  task_id : Nat
  sender_id : Nat
  type : MessageType
  body : String
  created_at : Nat
  deriving DecidableEq, Repr

/-- A row of the `ratings` table. -/
structure Rating where
  id : Nat
  task_id : Nat
  rater_id : Nat
  ratee_id : Nat
  stars : Int
  comment : Option String
  created_at : Nat
  deriving DecidableEq, Repr

/-- A row of the `blocks` table. -/
structure Block where
  id : Nat
  blocker_id : Nat
  blocked_id : Nat
  created_at : Nat
  deriving DecidableEq, Repr

/-- The relational store: the five tables of the initial schema. -/
structure DB where
  profiles : List Profile
  tasks : List Task
  messages : List Message
  ratings : List Rating
  blocks : List Block
  deriving DecidableEq, Repr

/-- The uniform action result shape `{ success, data?, error? }`. -/
structure ActionResult (α : Type) where
  success : Bool
  data : Option α
  error : Option String
  deriving DecidableEq, Repr

/-- Failure result paired with an (unchanged) store: `return { success: false, error }`. -/
def fail {α : Type} (msg : String) (db : DB) : ActionResult α × DB :=
  ({ success := false, data := none, error := some msg }, db)

/-- Success result carrying data: `return { success: true, data }`. -/
def okWith {α : Type} (a : α) (db : DB) : ActionResult α × DB :=
  ({ success := true, data := some a, error := none }, db)

/-- Bare success result: `return { success: true }`. -/
def okUnit (db : DB) : ActionResult Unit × DB :=
  ({ success := true, data := none, error := none }, db)

/-- `.from(tasks).select().eq(id, taskId).single()`. -/
def DB.findTask (db : DB) (taskId : Nat) : Option Task :=
  db.tasks.find? (fun t => t.id == taskId)

/-- `.from(profiles).select().eq(id, uid).single()`. -/
def DB.findProfile (db : DB) (uid : Nat) : Option Profile :=
  db.profiles.find? (fun p => p.id == uid)

/-- `profile?.accepted_rules` coerced to a boolean (missing row is falsy). -/
def profileAcceptedRules (p : Option Profile) : Bool :=
  match p with
  | some pr => pr.accepted_rules
  | none => false

/-- The `is_blocked` SQL helper: a block row exists in either direction. -/
def is_blocked (db : DB) (viewer_id other_id : Nat) : Bool :=
  db.blocks.any (fun b =>
    (b.blocker_id == viewer_id && b.blocked_id == other_id)
      || (b.blocker_id == other_id && b.blocked_id == viewer_id))

/-- `is_blocked` invoked with a possibly-NULL second argument: SQL comparisons
with NULL match no rows, so the call returns false. -/
def is_blockedOpt (db : DB) (viewer_id : Nat) (other : Option Nat) : Bool :=
  match other with
  | some o => is_blocked db viewer_id o
  | none => false

/-- A PostgREST `.update(f).eq/...` filtered update: applies `f` to every row
satisfying `p` and also reports the number of affected rows (supabase-js
surfaces no error when this number is zero). -/
def updateWhere (p : Task → Bool) (f : Task → Task) : List Task → List Task × Nat
  | [] => ([], 0)
  | t :: ts =>
    if p t then (f t :: (updateWhere p f ts).1, (updateWhere p f ts).2 + 1)
    else (t :: (updateWhere p f ts).1, (updateWhere p f ts).2)

/-- JS `String.prototype.trim`, modelled structurally on the character list:
strip leading and trailing whitespace. -/
def jsTrim (s : String) : String :=
  String.mk (((s.data.dropWhile Char.isWhitespace).reverse.dropWhile Char.isWhitespace).reverse)

/-- Input record of `createTask`. -/
structure CreateTaskInput where
  title : String
  description : String
  category : TaskCategory
  location_text : String
  time_window : TimeWindow
  scheduled_at : Option Nat
  price_cents : Int
  deriving DecidableEq, Repr

/-- `validateTaskInput` of `tasks.ts`: returns an error message or `none`.
The checks run in source order; the schedule timestamp is modelled as an
epoch `Nat` and "in the future" as strictly greater than `now`. -/
def validateTaskInput (now : Nat) (input : CreateTaskInput) : Option String :=
  if (jsTrim input.title).length = 0 then some ("Title is required")
  else if 80 < input.title.length then some ("Title must be 80 characters or less")
  else if (jsTrim input.description).length = 0 then some ("Description is required")
  else if 1000 < input.description.length then some ("Description must be 1000 characters or less")
  else if (jsTrim input.location_text).length = 0 then some ("Location is required")
  else if 120 < input.location_text.length then some ("Location must be 120 characters or less")
  else if input.price_cents < 500 then some ("Minimum price is 5 dollars")
  else if 50000 < input.price_cents then some ("Maximum price is 500 dollars")
  else if input.time_window = TimeWindow.SCHEDULED then
    match input.scheduled_at with
    | none => some ("Scheduled time is required")
    | some s => if s ≤ now then some ("Scheduled time must be in the future") else none
  else none

/-- `createTask` of `tasks.ts`: auth check, rules gate, validation, insert.
`newId` stands for the generated row id. -/
def createTask (db : DB) (auth : Option Nat) (now newId : Nat) (input : CreateTaskInput) :
    ActionResult Task × DB :=
  match auth with
  | none => fail ("Not authenticated") db
  | some uid =>
    if !(profileAcceptedRules (db.findProfile uid)) then
      fail ("You must accept the rules before posting") db
    else
      match validateTaskInput now input with
      | some e => fail e db
      | none =>
        let task : Task := {
          id := newId
          poster_id := uid
          accepted_by_user_id := none
          status := TaskStatus.OPEN
          title := (jsTrim input.title)
          description := (jsTrim input.description)
          category := input.category
          location_text := (jsTrim input.location_text)
          time_window := input.time_window
          scheduled_at := if input.time_window = TimeWindow.SCHEDULED then input.scheduled_at else none
          price_cents := input.price_cents
          created_at := now
          accepted_at := none
          completed_at := none
          canceled_at := none }
        okWith task { db with tasks := db.tasks ++ [task] }

/-- Input record of `updateTask` (all fields optional). -/
structure UpdateTaskInput where
  title : Option String
  description : Option String
  price_cents : Option Int
  deriving DecidableEq, Repr

/-- JS truthiness of an optional string (`undefined` and the empty string are falsy). -/
def strTruthy (o : Option String) : Bool :=
  match o with
  | some s => s != ""
  | none => false

/-- The `input.title && input.title.length > 80` style check of `updateTask`:
the length bound fires only when the optional string is truthy. -/
def optTooLong (o : Option String) (maxLen : Nat) : Bool :=
  match o with
  | some s => if s = "" then false else if maxLen < s.length then true else false
  | none => false

/-- The `input.price_cents !== undefined` range check of `updateTask`. -/
def priceOutOfRange (o : Option Int) : Bool :=
  match o with
  | some p => if p < 500 ∨ 50000 < p then true else false
  | none => false

/-- `updateTask` of `tasks.ts`: owner and OPEN-status checks, bounds checks,
then a spread-update touching only the truthy/defined fields. -/
def updateTask (db : DB) (auth : Option Nat) (taskId : Nat) (input : UpdateTaskInput) :
    ActionResult Task × DB :=
  match auth with
  | none => fail ("Not authenticated") db
  | some uid =>
    match db.findTask taskId with
    | none => fail ("Task not found") db
    | some task =>
      if task.poster_id ≠ uid then fail ("You can only edit your own tasks") db
      else if task.status ≠ TaskStatus.OPEN then fail ("Can only edit tasks that are still open") db
      else if optTooLong input.title 80 then fail ("Title must be 80 characters or less") db
      else if optTooLong input.description 1000 then fail ("Description must be 1000 characters or less") db
      else if priceOutOfRange input.price_cents then fail ("Price must be between 5 and 500 dollars") db
      else
        let f : Task → Task := fun t =>
          { t with
            title := match input.title with
              | some s => if s = "" then t.title else (jsTrim s)
              | none => t.title
            description := match input.description with
              | some s => if s = "" then t.description else (jsTrim s)
              | none => t.description
            price_cents := match input.price_cents with
              | some p => p
              | none => t.price_cents }
        let tasks2 := (updateWhere (fun t => t.id == taskId) f db.tasks).1
        okWith (f task) { db with tasks := tasks2 }

/-- `acceptTask` of `tasks.ts`, split into its read phase and its write phase.
All reads (profile, task fetch, block check) observe `db1`, the store at the
time of the handler's initial reads; the conditional update
(`.eq(id).eq(status, OPEN)`) and the system-message insert execute against
`db2`, the store at write time, which may have advanced in between (the
accept race).  The handler checks only the update error, not the number of
affected rows, exactly as the source does. -/
def acceptTaskPhased (db1 db2 : DB) (auth : Option Nat) (taskId now : Nat) :
    ActionResult Unit × DB :=
  match auth with
  | none => fail ("Not authenticated") db2
  | some uid =>
    if !(profileAcceptedRules (db1.findProfile uid)) then
      fail ("You must accept the rules before accepting tasks") db2
    else
      match db1.findTask taskId with
      | none => fail ("Task not found") db2
      | some task =>
        if task.poster_id == uid then fail ("You cannot accept your own task") db2
        else if !(task.status == TaskStatus.OPEN) then fail ("This task is no longer available") db2
        else if is_blocked db1 uid task.poster_id then fail ("Unable to accept this task") db2
        else
          let tasks2 := (updateWhere (fun t => t.id == taskId && t.status == TaskStatus.OPEN)
            (fun t => { t with
              accepted_by_user_id := some uid
              status := TaskStatus.ACCEPTED
              accepted_at := some now }) db2.tasks).1
          let db3 : DB := { db2 with tasks := tasks2 }
          let msg : Message := {
            id := db3.messages.length
            task_id := taskId
            sender_id := uid
            type := MessageType.SYSTEM
            body := ("Task accepted! You can now chat to coordinate details.")
            created_at := now }
          okUnit { db3 with messages := db3.messages ++ [msg] }

/-- `acceptTask` in an interference-free execution: read and write phases see
the same store. -/
def acceptTask (db : DB) (auth : Option Nat) (taskId now : Nat) : ActionResult Unit × DB :=
  acceptTaskPhased db db auth taskId now

/-- `cancelTask` of `tasks.ts`. -/
def cancelTask (db : DB) (auth : Option Nat) (taskId now : Nat) : ActionResult Unit × DB :=
  match auth with
  | none => fail ("Not authenticated") db
  | some uid =>
    match db.findTask taskId with
    | none => fail ("Task not found") db
    | some task =>
      let isPoster := task.poster_id == uid
      let isWorker := task.accepted_by_user_id == some uid
      if !isPoster && !isWorker then fail ("You cannot cancel this task") db
      else if task.status == TaskStatus.COMPLETE then fail ("Cannot cancel a completed task") db
      else if task.status == TaskStatus.CANCELED then fail ("Task is already canceled") db
      else if isWorker && !(task.status == TaskStatus.ACCEPTED) then fail ("Cannot cancel this task") db
      else
        let tasks2 := (updateWhere (fun t => t.id == taskId)
          (fun t => { t with status := TaskStatus.CANCELED, canceled_at := some now }) db.tasks).1
        let db2 : DB := { db with tasks := tasks2 }
        let role := if isPoster then ("poster") else ("worker")
        let msg : Message := {
          id := db2.messages.length
          task_id := taskId
          sender_id := uid
          type := MessageType.SYSTEM
          body := ("Task canceled by the " ++ role ++ ".")
          created_at := now }
        okUnit { db2 with messages := db2.messages ++ [msg] }

/-- `completeTask` of `tasks.ts`. -/
def completeTask (db : DB) (auth : Option Nat) (taskId now : Nat) : ActionResult Unit × DB :=
  match auth with
  | none => fail ("Not authenticated") db
  | some uid =>
    match db.findTask taskId with
    | none => fail ("Task not found") db
    | some task =>
      if !(task.poster_id == uid) then fail ("Only the task poster can mark it complete") db
      else if !(task.status == TaskStatus.ACCEPTED) then
        fail ("Task must be accepted before it can be completed") db
      else
        let tasks2 := (updateWhere (fun t => t.id == taskId)
          (fun t => { t with status := TaskStatus.COMPLETE, completed_at := some now }) db.tasks).1
        let db2 : DB := { db with tasks := tasks2 }
        let msg : Message := {
          id := db2.messages.length
          task_id := taskId
          sender_id := uid
          type := MessageType.SYSTEM
          body := ("Task marked as complete! Remember to rate each other.")
          created_at := now }
        okUnit { db2 with messages := db2.messages ++ [msg] }

/-- Feed sort options (`SortOption` in the type definitions). -/
inductive SortOption where
  | newest
  | highest_pay
  deriving DecidableEq, Repr

/-- Feed filter state (`TaskFilters`): `none` stands for an absent filter or
the `ALL` sentinel. -/
structure TaskFilters where
  category : Option TaskCategory
  timeWindow : Option TimeWindow
  minPrice : Option Int
  sort : SortOption
  deriving DecidableEq, Repr

/-- The `filters?.category && filters.category !== ALL` feed filter. -/
def categoryFilter (o : Option TaskCategory) (t : Task) : Bool :=
  match o with
  | some c => t.category == c
  | none => true

/-- The `filters?.timeWindow && filters.timeWindow !== ALL` feed filter. -/
def timeWindowFilter (o : Option TimeWindow) (t : Task) : Bool :=
  match o with
  | some w => t.time_window == w
  | none => true

/-- The `filters?.minPrice` feed filter; a zero minimum is falsy in JS, so it
applies no constraint. -/
def minPriceFilter (o : Option Int) (t : Task) : Bool :=
  match o with
  | some p => if p = 0 then true else if p ≤ t.price_cents then true else false
  | none => true

/-- The whole `getTasks` row predicate: the fixed
`.in(status, [OPEN, ACCEPTED])` clause plus the optional filters. -/
def feedPred (filters : TaskFilters) (t : Task) : Bool :=
  (t.status == TaskStatus.OPEN || t.status == TaskStatus.ACCEPTED)
    && categoryFilter filters.category t
    && timeWindowFilter filters.timeWindow t
    && minPriceFilter filters.minPrice t

/-- Descending creation-time order (`.order(created_at, { ascending: false })`). -/
def createdDesc (a b : Task) : Prop := b.created_at ≤ a.created_at

instance : DecidableRel createdDesc := fun a b => Nat.decLe b.created_at a.created_at

instance : IsTotal Task createdDesc := ⟨fun a b => Nat.le_total b.created_at a.created_at⟩

instance : IsTrans Task createdDesc := ⟨fun a b c h1 h2 => Nat.le_trans h2 h1⟩

/-- Descending price order (`.order(price_cents, { ascending: false })`). -/
def priceDesc (a b : Task) : Prop := b.price_cents ≤ a.price_cents

instance : DecidableRel priceDesc := fun a b => Int.decLe b.price_cents a.price_cents

instance : IsTotal Task priceDesc := ⟨fun a b => Int.le_total b.price_cents a.price_cents⟩

instance : IsTrans Task priceDesc := ⟨fun a b c h1 h2 => Int.le_trans h2 h1⟩

/-- Ascending creation-time order for chat history
(`.order(created_at, { ascending: true })`). -/
def createdAsc (a b : Message) : Prop := a.created_at ≤ b.created_at

instance : DecidableRel createdAsc := fun a b => Nat.decLe a.created_at b.created_at

instance : IsTotal Message createdAsc := ⟨fun a b => Nat.le_total a.created_at b.created_at⟩

instance : IsTrans Message createdAsc := ⟨fun a b c h1 h2 => Nat.le_trans h1 h2⟩

/-- `getTasks` of `tasks.ts`: status clause, optional filters, ordering
(price when `highest_pay` is selected, creation time otherwise), limit 50. -/
def getTasks (db : DB) (filters : TaskFilters) : ActionResult (List Task) × DB :=
  let base := db.tasks.filter (feedPred filters)
  let sorted := if filters.sort == SortOption.highest_pay
    then List.insertionSort priceDesc base
    else List.insertionSort createdDesc base
  okWith (sorted.take 50) db

/-- `sendMessage` of the message actions: body validation, participant check,
status gate, participant block check, insert. -/
def sendMessage (db : DB) (auth : Option Nat) (taskId : Nat) (body : String) (now : Nat) :
    ActionResult Message × DB :=
  match auth with
  | none => fail ("Not authenticated") db
  | some uid =>
    let trimmedBody := (jsTrim body)
    if trimmedBody = "" then fail ("Message cannot be empty") db
    else if 2000 < trimmedBody.length then fail ("Message is too long (max 2000 characters)") db
    else
      match db.findTask taskId with
      | none => fail ("Task not found") db
      | some task =>
        let isPoster := task.poster_id == uid
        let isWorker := task.accepted_by_user_id == some uid
        if !isPoster && !isWorker then fail ("You are not a participant in this task") db
        else if task.status == TaskStatus.OPEN then
          fail ("Chat is only available after a task is accepted") db
        else if task.status == TaskStatus.CANCELED then
          fail ("Cannot send messages in a canceled task") db
        else if is_blockedOpt db task.poster_id task.accepted_by_user_id then
          fail ("Unable to send message") db
        else
          let msg : Message := {
            id := db.messages.length
            task_id := taskId
            sender_id := uid
            type := MessageType.TEXT
            body := trimmedBody
            created_at := now }
          okWith msg { db with messages := db.messages ++ [msg] }

/-- `getMessages` of the message actions: participant check, then the full
per-task history ordered by creation time ascending. -/
def getMessages (db : DB) (auth : Option Nat) (taskId : Nat) :
    ActionResult (List Message) × DB :=
  match auth with
  | none => fail ("Not authenticated") db
  | some uid =>
    match db.findTask taskId with
    | none => fail ("Task not found") db
    | some task =>
      let isPoster := task.poster_id == uid
      let isWorker := task.accepted_by_user_id == some uid
      if !isPoster && !isWorker then fail ("You are not a participant in this task") db
      else
        okWith (List.insertionSort createdAsc (db.messages.filter (fun m => m.task_id == taskId))) db

/-- Input record of `submitRating`. -/
structure SubmitRatingInput where
  taskId : Nat
  stars : Int
  comment : Option String
  deriving DecidableEq, Repr

/-- The `input.comment && input.comment.length > 500` check: fires only when
the optional comment is truthy. -/
def commentTooLong (o : Option String) : Bool :=
  match o with
  | some s => if s = "" then false else if 500 < s.length then true else false
  | none => false

/-- `input.comment?.trim() || null` of the rating insert. -/
def commentOrNull (o : Option String) : Option String :=
  match o with
  | some s => if (jsTrim s) = "" then none else some (jsTrim s)
  | none => none

/-- `submitRating` of the rating actions: stars and comment bounds, COMPLETE
status gate, participant check, ratee inferred as the other participant,
one-rating-per-(task, rater) check, insert. -/
def submitRating (db : DB) (auth : Option Nat) (input : SubmitRatingInput) (now : Nat) :
    ActionResult Rating × DB :=
  match auth with
  | none => fail ("Not authenticated") db
  | some uid =>
    if input.stars < 1 ∨ 5 < input.stars then fail ("Rating must be 1-5 stars") db
    else if commentTooLong input.comment then fail ("Comment must be 500 characters or less") db
    else
      match db.findTask input.taskId with
      | none => fail ("Task not found") db
      | some task =>
        if !(task.status == TaskStatus.COMPLETE) then fail ("Can only rate completed tasks") db
        else
          let isPoster := task.poster_id == uid
          let isWorker := task.accepted_by_user_id == some uid
          if !isPoster && !isWorker then fail ("You are not a participant in this task") db
          else
            match (if isPoster then task.accepted_by_user_id else some task.poster_id) with
            | none => fail ("No one to rate") db
            | some rateeId =>
              match db.ratings.find? (fun r => r.task_id == input.taskId && r.rater_id == uid) with
              | some _ => fail ("You have already rated this task") db
              | none =>
                let rating : Rating := {
                  id := db.ratings.length
                  task_id := input.taskId
                  rater_id := uid
                  ratee_id := rateeId
                  stars := input.stars
                  comment := commentOrNull input.comment
                  created_at := now }
                okWith rating { db with ratings := db.ratings ++ [rating] }

/-- One invocation of a task-lifecycle handler, with its authenticated subject
and inputs; used to state invariants over arbitrary operation sequences. -/
inductive Op where
  | create (auth : Option Nat) (now newId : Nat) (input : CreateTaskInput)
  | edit (auth : Option Nat) (taskId : Nat) (input : UpdateTaskInput)
  | accept (auth : Option Nat) (taskId now : Nat)
  | cancel (auth : Option Nat) (taskId now : Nat)
  | complete (auth : Option Nat) (taskId now : Nat)
  deriving DecidableEq, Repr

/-- The store after running one lifecycle operation. -/
def applyOp (db : DB) : Op → DB
  | Op.create auth now newId input => (createTask db auth now newId input).2
  | Op.edit auth taskId input => (updateTask db auth taskId input).2
  | Op.accept auth taskId now => (acceptTask db auth taskId now).2
  | Op.cancel auth taskId now => (cancelTask db auth taskId now).2
  | Op.complete auth taskId now => (completeTask db auth taskId now).2

/-! ## Shared helper lemmas -/

/-- A status that is neither OPEN nor CANCELED is ACCEPTED or COMPLETE. -/
theorem status_accepted_or_complete (s : TaskStatus) (h1 : s ≠ TaskStatus.OPEN)
    (h2 : s ≠ TaskStatus.CANCELED) : s = TaskStatus.ACCEPTED ∨ s = TaskStatus.COMPLETE := by
  cases s <;> simp_all

/-- A filtered update touches rows pointwise: any property that `f` preserves
and every input row enjoys also holds of every output row. -/
theorem updateWhere_forall {P : Task → Prop} {p : Task → Bool} {f : Task → Task}
    (hf : ∀ t, P t → P (f t)) :
    ∀ {ts : List Task}, (∀ t ∈ ts, P t) → ∀ t ∈ (updateWhere p f ts).1, P t := by
  intro ts
  induction ts with
  | nil => intro _ t ht; simp [updateWhere] at ht
  | cons a as ih =>
    intro h t ht
    by_cases hp : p a = true
    · simp only [updateWhere, hp, if_true, List.mem_cons] at ht
      rcases ht with h1 | h1
      · exact h1 ▸ hf a (h a (by simp))
      · exact ih (fun x hx => h x (by simp [hx])) t h1
    · simp only [updateWhere, hp, if_false, Bool.false_eq_true, List.mem_cons] at ht
      rcases ht with h1 | h1
      · exact h1 ▸ h a (by simp)
      · exact ih (fun x hx => h x (by simp [hx])) t h1

/-- A filtered update relates input and output tables pointwise. -/
theorem updateWhere_forall₂ {R : Task → Task → Prop} {p : Task → Bool} {f : Task → Task}
    (hrefl : ∀ t, R t t) (hf : ∀ t, R t (f t)) :
    ∀ ts : List Task, List.Forall₂ R ts (updateWhere p f ts).1 := by
  intro ts
  induction ts with
  | nil => simp [updateWhere]
  | cons a as ih =>
    by_cases hp : p a = true
    · simp only [updateWhere, hp, if_true]
      exact List.Forall₂.cons (hf a) ih
    · simp only [updateWhere, hp, if_false, Bool.false_eq_true]
      exact List.Forall₂.cons (hrefl a) ih

/-! ## The accept race (claims C1 and C2)

Concrete store: poster 1 and two rule-accepting workers 2 and 3, one OPEN
task 10.  Worker 2 accepts first.  Worker 3's handler performed its reads
while the task was still OPEN (store `raceDb0`) but its conditional update
runs after worker 2's commit (store `raceDb1`): the guarded update matches
zero rows, which supabase-js does not report as an error. -/

/-- Poster profile for the race scenario. -/
def profPoster : Profile :=
  { id := 1, email := "poster@uci.edu", display_name := none, accepted_rules := true, created_at := 0 }

/-- First worker profile for the race scenario. -/
def profWorker1 : Profile :=
  { id := 2, email := "w1@uci.edu", display_name := none, accepted_rules := true, created_at := 0 }

/-- Second worker profile for the race scenario. -/
def profWorker2 : Profile :=
  { id := 3, email := "w2@uci.edu", display_name := none, accepted_rules := true, created_at := 0 }

/-- The OPEN task both workers try to accept. -/
def raceTask : Task :=
  { id := 10, poster_id := 1, accepted_by_user_id := none, status := TaskStatus.OPEN,
    title := "Pickup", description := "Pick up a package", category := TaskCategory.ERRAND,
    location_text := "Aldrich Park", time_window := TimeWindow.NOW, scheduled_at := none,
    price_cents := 1000, created_at := 0, accepted_at := none, completed_at := none,
    canceled_at := none }

/-- The store before either accept attempt. -/
def raceDb0 : DB :=
  { profiles := [profPoster, profWorker1, profWorker2], tasks := [raceTask],
    messages := [], ratings := [], blocks := [] }

/-- The store after worker 2's accept committed. -/
def raceDb1 : DB := (acceptTask raceDb0 (some 2) 10 5).2

/-- Worker 3's competing accept: reads against `raceDb0`, conditional update
against `raceDb1`. -/
def raceLoser : ActionResult Unit × DB := acceptTaskPhased raceDb0 raceDb1 (some 3) 10 6

/-- C1: on the code, the race-losing accept does NOT report a failure.  Both
competing accepts on the same OPEN task return `success = true`: the loser's
status-guarded update matches zero rows, supabase-js raises no error for a
zero-row update, and the handler never inspects the affected-row count, so
the "no longer available" path is unreachable in the race window.  The task
itself stays accepted by the first worker. -/
theorem acceptTask_race_loser_reports_success :
    (acceptTask raceDb0 (some 2) 10 5).1.success = true
      ∧ ((raceDb1.findTask 10).map Task.status = some TaskStatus.ACCEPTED
        ∧ (raceDb1.findTask 10).map Task.accepted_by_user_id = some (some 2))
      ∧ raceLoser.1.success = true
      ∧ ((raceLoser.2.findTask 10).map Task.status = some TaskStatus.ACCEPTED
        ∧ (raceLoser.2.findTask 10).map Task.accepted_by_user_id = some (some 2)) := by
  exact ⟨rfl, ⟨rfl, rfl⟩, rfl, ⟨rfl, rfl⟩⟩

/-- C2: on the code, the transition and the dependent system message are not
a unit.  The race-losing accept leaves the task table entirely unchanged (its
guarded update matched zero rows) yet still appends a system message — an
outcome with the message insert but no row transition. -/
theorem acceptTask_race_message_without_transition :
    raceLoser.2.tasks = raceDb1.tasks
      ∧ raceLoser.2.messages.length = raceDb1.messages.length + 1
      ∧ raceLoser.1.success = true := by
  exact ⟨rfl, rfl, rfl⟩

/-! ## Messaging gate (claims C3 and C4) -/

/-- `sendMessage` succeeds exactly when the caller is a participant, the
status is ACCEPTED or COMPLETE, poster and acceptor are unblocked, and the
trimmed body is non-empty and within the length bound. -/
theorem sendMessage_success_iff (db : DB) (uid taskId now : Nat) (body : String) (t : Task)
    (hfind : db.findTask taskId = some t) :
    (sendMessage db (some uid) taskId body now).1.success = true ↔
      ((t.poster_id = uid ∨ t.accepted_by_user_id = some uid)
        ∧ (t.status = TaskStatus.ACCEPTED ∨ t.status = TaskStatus.COMPLETE)
        ∧ is_blockedOpt db t.poster_id t.accepted_by_user_id = false
        ∧ (jsTrim body) ≠ "" ∧ (jsTrim body).length ≤ 2000) := by
  simp only [sendMessage, hfind]
  split
  next hempty =>
    simp only [fail, Bool.false_eq_true, false_iff]
    intro hc
    exact hc.2.2.2.1 hempty
  next hempty =>
    split
    next hlong =>
      simp only [fail, Bool.false_eq_true, false_iff]
      intro hc
      have := hc.2.2.2.2
      omega
    next hlong =>
      split
      next hpart =>
        simp only [fail, Bool.false_eq_true, false_iff]
        intro hc
        simp only [Bool.and_eq_true, Bool.not_eq_true', beq_eq_false_iff_ne, ne_eq] at hpart
        rcases hc.1 with hp | hp
        · exact hpart.1 hp
        · exact hpart.2 hp
      next hpart =>
        split
        next hopen =>
          simp only [beq_iff_eq] at hopen
          simp only [fail, Bool.false_eq_true, false_iff]
          intro hc
          rcases hc.2.1 with hs | hs <;> rw [hopen] at hs <;> exact absurd hs (by decide)
        next hopen =>
          split
          next hcanc =>
            simp only [beq_iff_eq] at hcanc
            simp only [fail, Bool.false_eq_true, false_iff]
            intro hc
            rcases hc.2.1 with hs | hs <;> rw [hcanc] at hs <;> exact absurd hs (by decide)
          next hcanc =>
            split
            next hblocked =>
              simp only [fail, Bool.false_eq_true, false_iff]
              intro hc
              rw [hc.2.2.1] at hblocked
              exact absurd hblocked (by decide)
            next hblocked =>
              simp only [okWith, true_iff]
              refine ⟨?_, ?_, ?_, hempty, ?_⟩
              · by_cases hp : t.poster_id = uid
                · exact Or.inl hp
                · right
                  by_cases hw : t.accepted_by_user_id = some uid
                  · exact hw
                  · exact absurd (by simp [Bool.and_eq_true, Bool.not_eq_true',
                      beq_eq_false_iff_ne, hp, hw]) hpart
              · refine status_accepted_or_complete t.status ?_ ?_
                · intro hs; exact hopen (by simp [hs])
                · intro hs; exact hcanc (by simp [hs])
              · simpa using hblocked
              · omega

/-- On success, `sendMessage` appends exactly the one new text message. -/
theorem sendMessage_effect (db : DB) (uid taskId now : Nat) (body : String) (t : Task)
    (hfind : db.findTask taskId = some t) :
    (sendMessage db (some uid) taskId body now).1.success = true →
      (sendMessage db (some uid) taskId body now).2.messages = db.messages ++
        [{ id := db.messages.length, task_id := taskId, sender_id := uid,
           type := MessageType.TEXT, body := (jsTrim body), created_at := now }] := by
  simp only [sendMessage, hfind]
  repeat' split
  all_goals simp [fail, okWith]

/-- On failure, `sendMessage` leaves the store untouched. -/
theorem sendMessage_frame (db : DB) (uid taskId now : Nat) (body : String) (t : Task)
    (hfind : db.findTask taskId = some t) :
    (sendMessage db (some uid) taskId body now).1.success = false →
      (sendMessage db (some uid) taskId body now).2 = db := by
  simp only [sendMessage, hfind]
  repeat' split
  all_goals simp [fail, okWith]

/-- C3: `sendMessage` inserts a message and succeeds exactly when the caller
is the task's poster or current acceptor, the status is ACCEPTED or COMPLETE,
no block exists between poster and acceptor in either direction, and the
trimmed body is non-empty and at most 2000 characters; on any failure no
message is inserted and the store is untouched. -/
theorem sendMessage_claim (db : DB) (uid taskId now : Nat) (body : String) (t : Task)
    (hfind : db.findTask taskId = some t) :
    ((sendMessage db (some uid) taskId body now).1.success = true ↔
      ((t.poster_id = uid ∨ t.accepted_by_user_id = some uid)
        ∧ (t.status = TaskStatus.ACCEPTED ∨ t.status = TaskStatus.COMPLETE)
        ∧ is_blockedOpt db t.poster_id t.accepted_by_user_id = false
        ∧ (jsTrim body) ≠ "" ∧ (jsTrim body).length ≤ 2000))
    ∧ ((sendMessage db (some uid) taskId body now).1.success = true →
        (sendMessage db (some uid) taskId body now).2.messages = db.messages ++
          [{ id := db.messages.length, task_id := taskId, sender_id := uid,
             type := MessageType.TEXT, body := (jsTrim body), created_at := now }])
    ∧ ((sendMessage db (some uid) taskId body now).1.success = false →
        (sendMessage db (some uid) taskId body now).2 = db) :=
  ⟨sendMessage_success_iff db uid taskId now body t hfind,
   sendMessage_effect db uid taskId now body t hfind,
   sendMessage_frame db uid taskId now body t hfind⟩

/-- An ACCEPTED task between poster 1 and worker 2 used to witness the
messaging-gate theorems. -/
def chatTask : Task :=
  { id := 20, poster_id := 1, accepted_by_user_id := some 2, status := TaskStatus.ACCEPTED,
    title := "Dog walk", description := "Walk my dog", category := TaskCategory.OTHER,
    location_text := "Campus", time_window := TimeWindow.TODAY, scheduled_at := none,
    price_cents := 800, created_at := 1, accepted_at := some 2, completed_at := none,
    canceled_at := none }

/-- Store holding the ACCEPTED chat task. -/
def chatDb : DB :=
  { profiles := [profPoster, profWorker1], tasks := [chatTask],
    messages := [], ratings := [], blocks := [] }

/-- C3 witness: the poster of the concrete ACCEPTED task can send a short
message. -/
theorem sendMessage_claim_witness :
    (sendMessage chatDb (some 1) 20 ("hi there") 9).1.success = true :=
  (sendMessage_claim chatDb 1 20 9 ("hi there") chatTask rfl).1.mpr
    (by refine ⟨Or.inl rfl, Or.inl rfl, rfl, by decide, by decide⟩)

/-- A CANCELED task between poster 1 and acceptor 2, with one chat message on
record; used to probe the read side of the messaging gate. -/
def canceledTask : Task :=
  { id := 30, poster_id := 1, accepted_by_user_id := some 2, status := TaskStatus.CANCELED,
    title := "Move boxes", description := "Help move two boxes", category := TaskCategory.MOVING,
    location_text := "Middle Earth", time_window := TimeWindow.TODAY, scheduled_at := none,
    price_cents := 1500, created_at := 1, accepted_at := some 2, completed_at := none,
    canceled_at := some 4 }

/-- The system message recorded while the canceled task was accepted. -/
def canceledMsg : Message :=
  { id := 0, task_id := 30, sender_id := 2, type := MessageType.SYSTEM,
    body := "Task accepted! You can now chat to coordinate details.", created_at := 2 }

/-- Store holding the CANCELED task and its one message. -/
def canceledDb : DB :=
  { profiles := [profPoster, profWorker1], tasks := [canceledTask],
    messages := [canceledMsg], ratings := [], blocks := [] }

/-- C4 counterexample: on the code, a participant CAN read the message
history of a CANCELED task — `getMessages` checks only participation, never
status, so the claimed OPEN/CANCELED read failure does not occur. -/
theorem getMessages_canceled_read_succeeds :
    (canceledDb.findTask 30).map Task.status = some TaskStatus.CANCELED
      ∧ (getMessages canceledDb (some 1) 30).1.success = true
      ∧ (getMessages canceledDb (some 1) 30).1.data =
          some canceledDb.messages := by
  exact ⟨rfl, rfl, rfl⟩

/-- C4 (amended): reading a task's messages is permitted exactly to the
task's poster and current acceptor, regardless of status; the read never
mutates the store. -/
theorem getMessages_spec (db : DB) (uid taskId : Nat) (t : Task)
    (hfind : db.findTask taskId = some t) :
    ((getMessages db (some uid) taskId).1.success = true ↔
      (t.poster_id = uid ∨ t.accepted_by_user_id = some uid))
    ∧ (getMessages db (some uid) taskId).2 = db := by
  simp only [getMessages, hfind]
  split
  next hpart =>
    refine ⟨?_, rfl⟩
    simp only [fail, Bool.false_eq_true, false_iff]
    intro hc
    simp only [Bool.and_eq_true, Bool.not_eq_true', beq_eq_false_iff_ne, ne_eq] at hpart
    rcases hc with hp | hp
    · exact hpart.1 hp
    · exact hpart.2 hp
  next hpart =>
    refine ⟨?_, rfl⟩
    simp only [okWith, true_iff]
    by_cases hp : t.poster_id = uid
    · exact Or.inl hp
    · right
      by_cases hw : t.accepted_by_user_id = some uid
      · exact hw
      · exact absurd (by simp [Bool.and_eq_true, Bool.not_eq_true',
          beq_eq_false_iff_ne, hp, hw]) hpart

/-- C4 witness: the acceptor of the concrete CANCELED task reads its history
successfully, and a stranger is refused. -/
theorem getMessages_spec_witness :
    (getMessages canceledDb (some 2) 30).1.success = true
      ∧ (getMessages canceledDb (some 7) 30).1.success = false := by
  constructor
  · exact (getMessages_spec canceledDb 2 30 canceledTask rfl).1.mpr (Or.inr rfl)
  · have h := (getMessages_spec canceledDb 7 30 canceledTask rfl).1
    by_cases hs : (getMessages canceledDb (some 7) 30).1.success = true
    · rcases h.mp hs with hp | hp <;> exact absurd hp (by decide)
    · simpa using hs

/-! ## Cancellation (claim C7) -/

/-- A status that is neither COMPLETE nor CANCELED is OPEN or ACCEPTED. -/
theorem status_open_or_accepted (s : TaskStatus) (h1 : s ≠ TaskStatus.COMPLETE)
    (h2 : s ≠ TaskStatus.CANCELED) : s = TaskStatus.OPEN ∨ s = TaskStatus.ACCEPTED := by
  cases s <;> simp_all

/-- `cancelTask` succeeds exactly for the poster from OPEN or ACCEPTED and
for the acceptor from ACCEPTED (given the acceptor is not the poster, an
invariant of reachable stores). -/
theorem cancelTask_success_iff (db : DB) (uid taskId now : Nat) (t : Task)
    (hfind : db.findTask taskId = some t)
    (hwf : t.accepted_by_user_id ≠ some t.poster_id) :
    (cancelTask db (some uid) taskId now).1.success = true ↔
      ((t.poster_id = uid ∧ (t.status = TaskStatus.OPEN ∨ t.status = TaskStatus.ACCEPTED))
        ∨ (t.accepted_by_user_id = some uid ∧ t.status = TaskStatus.ACCEPTED)) := by
  simp only [cancelTask, hfind]
  split
  next hpart =>
    simp only [fail, Bool.false_eq_true, false_iff]
    intro hc
    simp only [Bool.and_eq_true, Bool.not_eq_true', beq_eq_false_iff_ne, ne_eq] at hpart
    rcases hc with ⟨hp, _⟩ | ⟨hp, _⟩
    · exact hpart.1 hp
    · exact hpart.2 hp
  next hpart =>
    split
    next hcomp =>
      simp only [beq_iff_eq] at hcomp
      simp only [fail, Bool.false_eq_true, false_iff]
      intro hc
      rcases hc with ⟨_, hs | hs⟩ | ⟨_, hs⟩ <;> rw [hcomp] at hs <;> exact absurd hs (by decide)
    next hcomp =>
      split
      next hcanc =>
        simp only [beq_iff_eq] at hcanc
        simp only [fail, Bool.false_eq_true, false_iff]
        intro hc
        rcases hc with ⟨_, hs | hs⟩ | ⟨_, hs⟩ <;> rw [hcanc] at hs <;> exact absurd hs (by decide)
      next hcanc =>
        split
        next hworker =>
          simp only [fail, Bool.false_eq_true, false_iff]
          simp only [Bool.and_eq_true, Bool.not_eq_true', beq_iff_eq, beq_eq_false_iff_ne,
            ne_eq] at hworker
          intro hc
          rcases hc with ⟨hp, hs | hs⟩ | ⟨hp, hs⟩
          · exact hwf (hp ▸ hworker.1)
          · exact hworker.2 hs
          · exact hworker.2 hs
        next hworker =>
          simp only [okUnit, true_iff]
          have hnc : t.status ≠ TaskStatus.COMPLETE := fun hs => hcomp (by simp [hs])
          have hnx : t.status ≠ TaskStatus.CANCELED := fun hs => hcanc (by simp [hs])
          simp only [Bool.and_eq_true, Bool.not_eq_true', beq_iff_eq, beq_eq_false_iff_ne,
            ne_eq, not_and, not_not] at hworker
          by_cases hp : t.poster_id = uid
          · exact Or.inl ⟨hp, status_open_or_accepted t.status hnc hnx⟩
          · by_cases hw : t.accepted_by_user_id = some uid
            · exact Or.inr ⟨hw, hworker hw⟩
            · exact absurd (by simp [Bool.and_eq_true, Bool.not_eq_true',
                beq_eq_false_iff_ne, hp, hw]) hpart

/-- On failure, `cancelTask` leaves the store (in particular the task row)
entirely unchanged. -/
theorem cancelTask_frame (db : DB) (uid taskId now : Nat) (t : Task)
    (hfind : db.findTask taskId = some t) :
    (cancelTask db (some uid) taskId now).1.success = false →
      (cancelTask db (some uid) taskId now).2 = db := by
  simp only [cancelTask, hfind]
  repeat' split
  all_goals simp [fail, okUnit]

/-- C7: `cancelTask` succeeds exactly when the caller is the poster with
status OPEN or ACCEPTED, or the acceptor with status ACCEPTED; any other
caller or a COMPLETE/CANCELED status yields an error with the store — hence
the task row — entirely unchanged. -/
theorem cancelTask_claim (db : DB) (uid taskId now : Nat) (t : Task)
    (hfind : db.findTask taskId = some t)
    (hwf : t.accepted_by_user_id ≠ some t.poster_id) :
    ((cancelTask db (some uid) taskId now).1.success = true ↔
      ((t.poster_id = uid ∧ (t.status = TaskStatus.OPEN ∨ t.status = TaskStatus.ACCEPTED))
        ∨ (t.accepted_by_user_id = some uid ∧ t.status = TaskStatus.ACCEPTED)))
    ∧ ((cancelTask db (some uid) taskId now).1.success = false →
        (cancelTask db (some uid) taskId now).2 = db) :=
  ⟨cancelTask_success_iff db uid taskId now t hfind hwf,
   cancelTask_frame db uid taskId now t hfind⟩

/-- A COMPLETE task between poster 1 and acceptor 2. -/
def completeTask30 : Task :=
  { id := 31, poster_id := 1, accepted_by_user_id := some 2, status := TaskStatus.COMPLETE,
    title := "Print poster", description := "Print a conference poster",
    category := TaskCategory.OTHER, location_text := "Science Library",
    time_window := TimeWindow.TODAY, scheduled_at := none, price_cents := 2000,
    created_at := 1, accepted_at := some 2, completed_at := some 3, canceled_at := none }

/-- Store holding the COMPLETE task. -/
def completeDb : DB :=
  { profiles := [profPoster, profWorker1], tasks := [completeTask30],
    messages := [], ratings := [], blocks := [] }

/-- C7 witness: the worker cancels the concrete ACCEPTED task successfully,
and the poster's cancel attempt on the concrete COMPLETE task fails with the
store unchanged. -/
theorem cancelTask_claim_witness :
    (cancelTask chatDb (some 2) 20 9).1.success = true
      ∧ (cancelTask completeDb (some 1) 31 9).2 = completeDb := by
  constructor
  · exact (cancelTask_claim chatDb 2 20 9 chatTask rfl (by decide)).1.mpr (Or.inr ⟨rfl, rfl⟩)
  · refine (cancelTask_claim completeDb 1 31 9 completeTask30 rfl (by decide)).2 ?_
    by_cases hs : (cancelTask completeDb (some 1) 31 9).1.success = true
    · rcases (cancelTask_claim completeDb 1 31 9 completeTask30 rfl (by decide)).1.mp hs with
        ⟨_, hs2 | hs2⟩ | ⟨_, hs2⟩ <;> exact absurd hs2 (by decide)
    · simpa using hs

/-! ## Editing (claims C9 and C6) -/

/-- The fields of a task row that an edit must never modify: everything
except title, description and price. -/
def editFrame (a b : Task) : Prop :=
  a.id = b.id ∧ a.poster_id = b.poster_id ∧ a.accepted_by_user_id = b.accepted_by_user_id
    ∧ a.status = b.status ∧ a.category = b.category ∧ a.location_text = b.location_text
    ∧ a.time_window = b.time_window ∧ a.scheduled_at = b.scheduled_at
    ∧ a.created_at = b.created_at ∧ a.accepted_at = b.accepted_at
    ∧ a.completed_at = b.completed_at ∧ a.canceled_at = b.canceled_at

/-- `editFrame` is reflexive. -/
theorem editFrame_refl (a : Task) : editFrame a a :=
  ⟨rfl, rfl, rfl, rfl, rfl, rfl, rfl, rfl, rfl, rfl, rfl, rfl⟩

/-- C9: `updateTask` succeeds only for the poster while the status is OPEN,
and no call — successful or not — changes anything in any task row beyond
title, description and price: row for row, every other field is untouched. -/
theorem updateTask_claim (db : DB) (uid taskId : Nat) (input : UpdateTaskInput) (t : Task)
    (hfind : db.findTask taskId = some t) :
    ((updateTask db (some uid) taskId input).1.success = true →
      (t.poster_id = uid ∧ t.status = TaskStatus.OPEN))
    ∧ List.Forall₂ editFrame db.tasks (updateTask db (some uid) taskId input).2.tasks := by
  have hrefl : List.Forall₂ editFrame db.tasks db.tasks :=
    List.forall₂_same.mpr (fun x _ => editFrame_refl x)
  simp only [updateTask, hfind]
  constructor
  · intro hs
    by_cases h1 : t.poster_id ≠ uid
    · simp [h1, fail] at hs
    · by_cases h2 : t.status ≠ TaskStatus.OPEN
      · simp [h1, h2, fail] at hs
      · push_neg at h1 h2
        exact ⟨h1, h2⟩
  · by_cases h1 : t.poster_id ≠ uid
    · simpa [h1, fail] using hrefl
    · by_cases h2 : t.status ≠ TaskStatus.OPEN
      · simpa [h1, h2, fail] using hrefl
      · by_cases h3 : optTooLong input.title 80 = true
        · simpa [h1, h2, h3, fail] using hrefl
        · by_cases h4 : optTooLong input.description 1000 = true
          · simpa [h1, h2, h3, h4, fail] using hrefl
          · by_cases h5 : priceOutOfRange input.price_cents = true
            · simpa [h1, h2, h3, h4, h5, fail] using hrefl
            · simp only [h1, h2, h3, h4, h5, if_false, ite_false, Bool.false_eq_true, okWith]
              apply updateWhere_forall₂ editFrame_refl ?_ db.tasks
              intro x
              exact ⟨rfl, rfl, rfl, rfl, rfl, rfl, rfl, rfl, rfl, rfl, rfl, rfl⟩

/-- An OPEN task posted by profile 1, for edit and lifecycle witnesses. -/
def openTask40 : Task :=
  { id := 40, poster_id := 1, accepted_by_user_id := none, status := TaskStatus.OPEN,
    title := "Return library book", description := "Return a book before closing",
    category := TaskCategory.ERRAND, location_text := "Langson Library",
    time_window := TimeWindow.NOW, scheduled_at := none, price_cents := 600,
    created_at := 1, accepted_at := none, completed_at := none, canceled_at := none }

/-- Store holding the OPEN task. -/
def openDb : DB :=
  { profiles := [profPoster, profWorker1], tasks := [openTask40],
    messages := [], ratings := [], blocks := [] }

/-- An edit raising the price and retitling the OPEN task. -/
def editInput : UpdateTaskInput :=
  { title := some "Return two library books", description := none, price_cents := some 750 }

/-- C9 witness: on the concrete OPEN task, the frame part of the edit theorem
applies: every field outside title/description/price is untouched row for
row. -/
theorem updateTask_claim_witness :
    List.Forall₂ editFrame openDb.tasks (updateTask openDb (some 1) 40 editInput).2.tasks :=
  (updateTask_claim openDb 1 40 editInput openTask40 rfl).2

/-- Everything `validateTaskInput` guarantees when it accepts an input. -/
theorem validateTaskInput_eq_none {now : Nat} {input : CreateTaskInput}
    (h : validateTaskInput now input = none) :
    ¬((jsTrim input.title).length = 0) ∧ input.title.length ≤ 80
    ∧ ¬((jsTrim input.description).length = 0) ∧ input.description.length ≤ 1000
    ∧ ¬((jsTrim input.location_text).length = 0) ∧ input.location_text.length ≤ 120
    ∧ 500 ≤ input.price_cents ∧ input.price_cents ≤ 50000
    ∧ (input.time_window = TimeWindow.SCHEDULED →
        ∃ s, input.scheduled_at = some s ∧ now < s) := by
  unfold validateTaskInput at h
  repeat' split at h
  any_goals exact Option.noConfusion h
  · rename_i s heq hfut
    exact ⟨by assumption, by omega, by assumption, by omega, by assumption, by omega,
      by omega, by omega, fun _ => ⟨s, heq, by omega⟩⟩
  · exact ⟨by assumption, by omega, by assumption, by omega, by assumption, by omega,
      by omega, by omega, fun hw => absurd hw (by assumption)⟩

/-- `createTask` rejects, without touching the store, whenever any input
bound is violated or the caller has not passed the rules gate. -/
theorem createTask_rejects (db : DB) (uid now newId : Nat) (input : CreateTaskInput)
    (hv : (jsTrim input.title) = "" ∨ 80 < input.title.length
      ∨ (jsTrim input.description) = "" ∨ 1000 < input.description.length
      ∨ (jsTrim input.location_text) = "" ∨ 120 < input.location_text.length
      ∨ input.price_cents < 500 ∨ 50000 < input.price_cents
      ∨ (input.time_window = TimeWindow.SCHEDULED
          ∧ (input.scheduled_at = none ∨ ∃ s, input.scheduled_at = some s ∧ s ≤ now))
      ∨ profileAcceptedRules (db.findProfile uid) = false) :
    (createTask db (some uid) now newId input).1.success = false
      ∧ (createTask db (some uid) now newId input).2 = db := by
  simp only [createTask]
  by_cases hr : profileAcceptedRules (db.findProfile uid) = true
  · cases hval : validateTaskInput now input with
    | some e => simp [hr, hval, fail]
    | none =>
      exfalso
      have hb := validateTaskInput_eq_none hval
      rcases hv with hv | hv | hv | hv | hv | hv | hv | hv | hv | hv
      · exact hb.1 (by simp [hv])
      · omega
      · exact hb.2.2.1 (by simp [hv])
      · omega
      · exact hb.2.2.2.2.1 (by simp [hv])
      · omega
      · omega
      · omega
      · rcases hb.2.2.2.2.2.2.2.2 hv.1 with ⟨s, heq, hfut⟩
        rcases hv.2 with hnone | ⟨s2, heq2, hpast⟩
        · rw [hnone] at heq; exact Option.noConfusion heq
        · rw [heq2] at heq
          have : s2 = s := Option.some.inj heq
          omega
      · rw [hv] at hr; exact Bool.noConfusion hr
  · simp only [Bool.not_eq_true] at hr
    simp [hr, fail]

/-- `updateTask` rejects an out-of-band price without touching the store. -/
theorem updateTask_rejects_price (db : DB) (uid taskId : Nat) (input : UpdateTaskInput)
    (p : Int) (hp : input.price_cents = some p) (hout : p < 500 ∨ 50000 < p) :
    (updateTask db (some uid) taskId input).1.success = false
      ∧ (updateTask db (some uid) taskId input).2 = db := by
  simp only [updateTask]
  cases hfind : db.findTask taskId with
  | none => simp [fail]
  | some t =>
    by_cases h1 : t.poster_id ≠ uid
    · simp [h1, fail]
    · by_cases h2 : t.status ≠ TaskStatus.OPEN
      · simp [h1, h2, fail]
      · by_cases h3 : optTooLong input.title 80 = true
        · simp [h1, h2, h3, fail]
        · by_cases h4 : optTooLong input.description 1000 = true
          · simp [h1, h2, h3, h4, fail]
          · have h5 : priceOutOfRange input.price_cents = true := by
              simp only [priceOutOfRange, hp]
              rw [if_pos hout]
            simp [h1, h2, h3, h4, h5, fail]

/-- C6: `createTask` returns a failure and persists nothing whenever any
input bound is violated (empty or over-length title, description or
location, out-of-band price, SCHEDULED without a future timestamp) or the
caller has not passed the rules gate; and `updateTask` likewise rejects any
out-of-band price without touching the store. -/
theorem create_update_validation_claim :
    (∀ (db : DB) (uid now newId : Nat) (input : CreateTaskInput),
      ((jsTrim input.title) = "" ∨ 80 < input.title.length
        ∨ (jsTrim input.description) = "" ∨ 1000 < input.description.length
        ∨ (jsTrim input.location_text) = "" ∨ 120 < input.location_text.length
        ∨ input.price_cents < 500 ∨ 50000 < input.price_cents
        ∨ (input.time_window = TimeWindow.SCHEDULED
            ∧ (input.scheduled_at = none ∨ ∃ s, input.scheduled_at = some s ∧ s ≤ now))
        ∨ profileAcceptedRules (db.findProfile uid) = false) →
      (createTask db (some uid) now newId input).1.success = false
        ∧ (createTask db (some uid) now newId input).2 = db)
    ∧ (∀ (db : DB) (uid taskId : Nat) (input : UpdateTaskInput) (p : Int),
      input.price_cents = some p → (p < 500 ∨ 50000 < p) →
      (updateTask db (some uid) taskId input).1.success = false
        ∧ (updateTask db (some uid) taskId input).2 = db) :=
  ⟨fun db uid now newId input hv => createTask_rejects db uid now newId input hv,
   fun db uid taskId input p hp hout => updateTask_rejects_price db uid taskId input p hp hout⟩

/-- A create request priced below the 500-cent minimum. -/
def cheapInput : CreateTaskInput :=
  { title := "Cheap task", description := "Too cheap to post",
    category := TaskCategory.OTHER, location_text := "Anywhere",
    time_window := TimeWindow.NOW, scheduled_at := none, price_cents := 100 }

/-- An edit request priced below the 500-cent minimum. -/
def cheapEdit : UpdateTaskInput :=
  { title := none, description := none, price_cents := some 100 }

/-- C6 witness: the concrete under-priced create and edit both fail and leave
the store untouched. -/
theorem create_update_validation_claim_witness :
    ((createTask openDb (some 1) 9 50 cheapInput).1.success = false
      ∧ (createTask openDb (some 1) 9 50 cheapInput).2 = openDb)
    ∧ ((updateTask openDb (some 1) 40 cheapEdit).1.success = false
      ∧ (updateTask openDb (some 1) 40 cheapEdit).2 = openDb) :=
  ⟨create_update_validation_claim.1 openDb 1 9 50 cheapInput
      (Or.inr (Or.inr (Or.inr (Or.inr (Or.inr (Or.inr (Or.inl (by decide)))))))),
   create_update_validation_claim.2 openDb 1 40 cheapEdit 100 rfl (Or.inl (by decide))⟩

/-! ## The scheduled-at invariant (claim C5) -/

/-- The row invariant: the schedule timestamp is present iff the time window
is the SCHEDULED variant. -/
def schedInv (t : Task) : Prop :=
  t.scheduled_at.isSome = true ↔ t.time_window = TimeWindow.SCHEDULED

/-- `createTask` preserves and establishes the scheduled-at invariant. -/
theorem createTask_schedInv (db : DB) (auth : Option Nat) (now newId : Nat)
    (input : CreateTaskInput) (h : ∀ t ∈ db.tasks, schedInv t) :
    ∀ t ∈ (createTask db auth now newId input).2.tasks, schedInv t := by
  cases auth with
  | none => simpa [createTask, fail] using h
  | some uid =>
    simp only [createTask]
    by_cases hr : profileAcceptedRules (db.findProfile uid) = true
    · cases hval : validateTaskInput now input with
      | some e => simpa [hr, hval, fail] using h
      | none =>
        simp only [hr, hval, Bool.not_true, Bool.false_eq_true, if_false, okWith]
        intro t ht
        rw [List.mem_append] at ht
        rcases ht with ht | ht
        · exact h t ht
        · rw [List.mem_singleton] at ht
          subst ht
          by_cases hw : input.time_window = TimeWindow.SCHEDULED
          · rcases (validateTaskInput_eq_none hval).2.2.2.2.2.2.2.2 hw with ⟨s, heq, _⟩
            simp [schedInv, hw, heq]
          · simp [schedInv, hw]
    · simp only [Bool.not_eq_true] at hr
      simpa [hr, fail] using h

/-- Row of a filtered update whose per-row function preserves the
scheduled-at invariant: membership-first form, so the update function is
determined by the membership proof. -/
theorem schedInv_of_updateWhere {p : Task → Bool} {f : Task → Task} {ts : List Task} {t : Task}
    (ht : t ∈ (updateWhere p f ts).1) (h : ∀ x ∈ ts, schedInv x)
    (hf : ∀ x, schedInv x → schedInv (f x)) : schedInv t :=
  updateWhere_forall hf h t ht

/-- `updateTask` preserves the scheduled-at invariant. -/
theorem updateTask_schedInv (db : DB) (auth : Option Nat) (taskId : Nat)
    (input : UpdateTaskInput) (h : ∀ t ∈ db.tasks, schedInv t) :
    ∀ t ∈ (updateTask db auth taskId input).2.tasks, schedInv t := by
  intro t ht
  unfold updateTask at ht
  simp only [fail, okUnit, okWith] at ht
  repeat' split at ht
  all_goals first
    | exact h t ht
    | exact schedInv_of_updateWhere ht h (fun x hx => hx)

/-- `acceptTask` preserves the scheduled-at invariant. -/
theorem acceptTask_schedInv (db : DB) (auth : Option Nat) (taskId now : Nat)
    (h : ∀ t ∈ db.tasks, schedInv t) :
    ∀ t ∈ (acceptTask db auth taskId now).2.tasks, schedInv t := by
  intro t ht
  unfold acceptTask acceptTaskPhased at ht
  simp only [fail, okUnit, okWith] at ht
  repeat' split at ht
  all_goals first
    | exact h t ht
    | exact schedInv_of_updateWhere ht h (fun x hx => hx)

/-- `cancelTask` preserves the scheduled-at invariant. -/
theorem cancelTask_schedInv (db : DB) (auth : Option Nat) (taskId now : Nat)
    (h : ∀ t ∈ db.tasks, schedInv t) :
    ∀ t ∈ (cancelTask db auth taskId now).2.tasks, schedInv t := by
  intro t ht
  unfold cancelTask at ht
  simp only [fail, okUnit, okWith] at ht
  repeat' split at ht
  all_goals first
    | exact h t ht
    | exact schedInv_of_updateWhere ht h (fun x hx => hx)

/-- `completeTask` preserves the scheduled-at invariant. -/
theorem completeTask_schedInv (db : DB) (auth : Option Nat) (taskId now : Nat)
    (h : ∀ t ∈ db.tasks, schedInv t) :
    ∀ t ∈ (completeTask db auth taskId now).2.tasks, schedInv t := by
  intro t ht
  unfold completeTask at ht
  simp only [fail, okUnit, okWith] at ht
  repeat' split at ht
  all_goals first
    | exact h t ht
    | exact schedInv_of_updateWhere ht h (fun x hx => hx)

/-- C5: starting from any store whose task rows satisfy the scheduled-at
invariant, every row still satisfies it after any sequence of create, edit,
accept, cancel and complete operations: `scheduled_at` is non-null exactly
when the time window is SCHEDULED. -/
theorem scheduled_at_iff_claim (db : DB) (h : ∀ t ∈ db.tasks, schedInv t) (ops : List Op) :
    ∀ t ∈ (List.foldl applyOp db ops).tasks, schedInv t := by
  induction ops generalizing db with
  | nil => simpa using h
  | cons op ops ih =>
    simp only [List.foldl_cons]
    apply ih
    cases op with
    | create auth now newId input => exact createTask_schedInv db auth now newId input h
    | edit auth taskId input => exact updateTask_schedInv db auth taskId input h
    | accept auth taskId now => exact acceptTask_schedInv db auth taskId now h
    | cancel auth taskId now => exact cancelTask_schedInv db auth taskId now h
    | complete auth taskId now => exact completeTask_schedInv db auth taskId now h

/-- The concrete OPEN task after worker 2's accept. -/
def acceptedTask40 : Task :=
  { openTask40 with
      accepted_by_user_id := some 2
      status := TaskStatus.ACCEPTED
      accepted_at := some 5 }

/-- C5 witness: after an accept operation on the concrete store, the task row
still satisfies the scheduled-at invariant. -/
theorem scheduled_at_iff_claim_witness :
    (List.foldl applyOp openDb [Op.accept (some 2) 40 5]).tasks = [acceptedTask40]
      ∧ schedInv acceptedTask40 :=
  ⟨rfl,
   scheduled_at_iff_claim openDb
     (by intro t ht
         rw [show openDb.tasks = [openTask40] from rfl, List.mem_singleton] at ht
         subst ht
         simp [schedInv, openTask40])
     [Op.accept (some 2) 40 5] acceptedTask40
     (by rw [show (List.foldl applyOp openDb [Op.accept (some 2) 40 5]).tasks =
           [acceptedTask40] from rfl]
         exact List.mem_singleton.mpr rfl)⟩

/-! ## Rating gate (claim C8) -/

/-- A boolean whose negation-after-bang is refuted is true. -/
theorem of_not_bang {b : Bool} (h : ¬((!b) = true)) : b = true := by
  cases b <;> simp_all

/-- A second rating attempt by the same rater on the same task fails and
leaves the store unchanged (as does any other failing attempt). -/
theorem submitRating_already_rated (db : DB) (uid now : Nat) (input : SubmitRatingInput)
    (t : Task) (hfind : db.findTask input.taskId = some t)
    (hex : ∃ r0 ∈ db.ratings, r0.task_id = input.taskId ∧ r0.rater_id = uid) :
    (submitRating db (some uid) input now).1.success = false
      ∧ (submitRating db (some uid) input now).2 = db := by
  simp only [submitRating, hfind]
  split
  next h1 => exact ⟨rfl, rfl⟩
  next h1 =>
    split
    next h2 => exact ⟨rfl, rfl⟩
    next h2 =>
      split
      next h3 => exact ⟨rfl, rfl⟩
      next h3 =>
        split
        next h4 => exact ⟨rfl, rfl⟩
        next h4 =>
          split
          next h5 => exact ⟨rfl, rfl⟩
          next rateeId h5 =>
            split
            next r0 h6 => exact ⟨rfl, rfl⟩
            next h6 =>
              exfalso
              rcases hex with ⟨r0, hr0mem, hr0t, hr0u⟩
              have hno := List.find?_eq_none.mp h6 r0 hr0mem
              simp [hr0t, hr0u] at hno

/-- Anatomy of a successful `submitRating`: the task is COMPLETE, the caller
participates, and exactly one rating row is appended whose ratee is the
other participant. -/
theorem submitRating_success_anatomy (db : DB) (uid now : Nat) (input : SubmitRatingInput)
    (t : Task) (hfind : db.findTask input.taskId = some t) :
    (submitRating db (some uid) input now).1.success = true →
      t.status = TaskStatus.COMPLETE
      ∧ (t.poster_id = uid ∨ t.accepted_by_user_id = some uid)
      ∧ ∃ rateeId,
          ((t.poster_id = uid ∧ t.accepted_by_user_id = some rateeId)
            ∨ (t.poster_id ≠ uid ∧ t.accepted_by_user_id = some uid ∧ rateeId = t.poster_id))
          ∧ (submitRating db (some uid) input now).2.ratings = db.ratings ++
              [{ id := db.ratings.length, task_id := input.taskId, rater_id := uid,
                 ratee_id := rateeId, stars := input.stars,
                 comment := commentOrNull input.comment, created_at := now }] := by
  simp only [submitRating, hfind]
  split
  next h1 => intro hs; simp [fail] at hs
  next h1 =>
    split
    next h2 => intro hs; simp [fail] at hs
    next h2 =>
      split
      next h3 => intro hs; simp [fail] at hs
      next h3 =>
        split
        next h4 => intro hs; simp [fail] at hs
        next h4 =>
          split
          next h5 => intro hs; simp [fail] at hs
          next rateeId h5 =>
            split
            next r0 h6 => intro hs; simp [fail] at hs
            next h6 =>
              intro _
              have hst : t.status = TaskStatus.COMPLETE := beq_iff_eq.mp (of_not_bang h3)
              refine ⟨hst, ?_, rateeId, ?_, rfl⟩
              · by_cases hp : t.poster_id = uid
                · exact Or.inl hp
                · right
                  by_cases hw : t.accepted_by_user_id = some uid
                  · exact hw
                  · exact absurd (by simp [Bool.and_eq_true, Bool.not_eq_true',
                      beq_eq_false_iff_ne, hp, hw]) h4
              · by_cases hp : t.poster_id = uid
                · rw [if_pos (by simp [hp])] at h5
                  exact Or.inl ⟨hp, h5⟩
                · have hw : t.accepted_by_user_id = some uid := by
                    by_cases hw : t.accepted_by_user_id = some uid
                    · exact hw
                    · exact absurd (by simp [Bool.and_eq_true, Bool.not_eq_true',
                        beq_eq_false_iff_ne, hp, hw]) h4
                  rw [if_neg (by simp [hp])] at h5
                  exact Or.inr ⟨hp, hw, (Option.some.inj h5).symm⟩

/-- C8: a second rating by the same rater on the same task fails with the
store unchanged; a successful rating requires a COMPLETE task and a
participating caller, and appends exactly one rating row whose ratee is
computed as the other participant — never equal to the rater (given the
acceptor differs from the poster, an invariant of reachable stores). -/
theorem submitRating_claim (db : DB) (uid now : Nat) (input : SubmitRatingInput) (t : Task)
    (hfind : db.findTask input.taskId = some t)
    (hwf : t.accepted_by_user_id ≠ some t.poster_id) :
    ((∃ r0 ∈ db.ratings, r0.task_id = input.taskId ∧ r0.rater_id = uid) →
      (submitRating db (some uid) input now).1.success = false
        ∧ (submitRating db (some uid) input now).2 = db)
    ∧ ((submitRating db (some uid) input now).1.success = true →
      t.status = TaskStatus.COMPLETE
      ∧ (t.poster_id = uid ∨ t.accepted_by_user_id = some uid)
      ∧ ∃ rt : Rating, (submitRating db (some uid) input now).2.ratings = db.ratings ++ [rt]
          ∧ rt.task_id = input.taskId ∧ rt.rater_id = uid
          ∧ ((t.poster_id = uid ∧ some rt.ratee_id = t.accepted_by_user_id)
            ∨ (t.poster_id ≠ uid ∧ rt.ratee_id = t.poster_id))
          ∧ rt.ratee_id ≠ rt.rater_id) := by
  constructor
  · exact submitRating_already_rated db uid now input t hfind
  · intro hs
    obtain ⟨hst, hpart, rateeId, hr, heq⟩ :=
      submitRating_success_anatomy db uid now input t hfind hs
    refine ⟨hst, hpart, _, heq, rfl, rfl, ?_, ?_⟩
    · rcases hr with ⟨hp, hacc⟩ | ⟨hp, hw, hrid⟩
      · exact Or.inl ⟨hp, hacc.symm⟩
      · exact Or.inr ⟨hp, hrid⟩
    · rcases hr with ⟨hp, hacc⟩ | ⟨hp, hw, hrid⟩
      · intro hbad
        dsimp only at hbad
        apply hwf
        rw [hacc, hbad, hp]
      · intro hbad
        dsimp only at hbad
        exact hp (hrid ▸ hbad)

/-- The worker's five-star rating request for the concrete COMPLETE task. -/
def ratingInput : SubmitRatingInput := { taskId := 31, stars := 5, comment := none }

/-- C8 witness: on the concrete COMPLETE task the worker's first rating
succeeds and stores exactly one rating row. -/
theorem submitRating_claim_witness :
    (submitRating completeDb (some 2) ratingInput 8).1.success = true
      ∧ (submitRating completeDb (some 2) ratingInput 8).2.ratings.length = 1 := by
  constructor
  · rfl
  · obtain ⟨_, _, rt, heq, _⟩ :=
      (submitRating_claim completeDb 2 8 ratingInput completeTask30 rfl (by decide)).2 rfl
    rw [heq]
    rfl

/-! ## The task feed (claim C10) -/

/-- C10: the feed returns success with a list containing only OPEN or
ACCEPTED tasks regardless of the filters, at most 50 of them, sorted by
descending price under the highest-pay sort and by descending creation time
otherwise. -/
theorem getTasks_claim (db : DB) (filters : TaskFilters) :
    ∃ l, (getTasks db filters).1.data = some l
      ∧ (getTasks db filters).1.success = true
      ∧ (∀ t ∈ l, t.status = TaskStatus.OPEN ∨ t.status = TaskStatus.ACCEPTED)
      ∧ l.length ≤ 50
      ∧ (filters.sort = SortOption.highest_pay → l.Sorted priceDesc)
      ∧ (filters.sort ≠ SortOption.highest_pay → l.Sorted createdDesc) := by
  by_cases hs : filters.sort = SortOption.highest_pay
  · refine ⟨(List.insertionSort priceDesc (db.tasks.filter (feedPred filters))).take 50,
      by simp [getTasks, hs, okWith], by simp [getTasks, okWith], ?_, ?_, ?_, ?_⟩
    · intro t ht
      have hmem := (List.perm_insertionSort priceDesc (db.tasks.filter (feedPred filters))).subset
        (List.take_subset 50 _ ht)
      have hf := (List.mem_filter.mp hmem).2
      simp only [feedPred, Bool.and_eq_true, Bool.or_eq_true, beq_iff_eq] at hf
      exact hf.1.1.1
    · exact List.length_take_le 50 _
    · intro _
      exact (List.sorted_insertionSort priceDesc _).sublist (List.take_sublist 50 _)
    · intro hne
      exact absurd hs hne
  · refine ⟨(List.insertionSort createdDesc (db.tasks.filter (feedPred filters))).take 50,
      by simp [getTasks, hs, okWith], by simp [getTasks, okWith], ?_, ?_, ?_, ?_⟩
    · intro t ht
      have hmem := (List.perm_insertionSort createdDesc (db.tasks.filter (feedPred filters))).subset
        (List.take_subset 50 _ ht)
      have hf := (List.mem_filter.mp hmem).2
      simp only [feedPred, Bool.and_eq_true, Bool.or_eq_true, beq_iff_eq] at hf
      exact hf.1.1.1
    · exact List.length_take_le 50 _
    · intro hp
      exact absurd hp hs
    · intro _
      exact (List.sorted_insertionSort createdDesc _).sublist (List.take_sublist 50 _)

/-- The unfiltered, default-sorted feed request. -/
def noFilters : TaskFilters :=
  { category := none, timeWindow := none, minPrice := none, sort := SortOption.newest }

/-- C10 witness: on the concrete store the feed succeeds and evaluates to
exactly the one OPEN task. -/
theorem getTasks_claim_witness :
    (getTasks openDb noFilters).1.success = true
      ∧ (getTasks openDb noFilters).1.data = some [openTask40] := by
  obtain ⟨l, hdata, hsucc, _⟩ := getTasks_claim openDb noFilters
  exact ⟨hsucc, rfl⟩

end Sidequest
